import Mathlib

/-
Verification of the branching-process extinction estimator
(src/models/BranchingProcessNB.py) against its specification.

The Python class BranchingProcessNB is shallowly embedded as a Lean
structure carrying the constructor-computed fields, with the numpy
random generator modelled as an explicit stream of non-negative integer
draws plus a cursor: each call nbinom.rvs(..., size = c) consumes the
next c values of the stream and advances the cursor by c.  Floats
(R0, k, p, max_infec) are modelled as rationals; the claims at issue
depend only on comparisons and exact divisions, not on rounding.
Stateful method calls become explicit state passing: each method returns
its result together with the post-call object state.
-/

/-- The random source: an infinite stream of negative-binomial draw
values (non-negative integers) together with the index of the next
draw to be consumed.  Models np.random.default_rng(seed): the stream
is a deterministic function of the seed, and sampling advances idx. -/
structure Rng where
  stream : ℕ → ℕ
  idx : ℕ

/-- The estimator object state: the fields assigned by
BranchingProcessNB.__init__.  p and n are the derived scipy
negative-binomial parameters p = k / (k + R0) and n = k. -/
structure BranchingProcessNB where
  R0 : ℚ
  k : ℚ
  G_max : ℤ
  max_infec : ℚ
  p : ℚ
  n : ℚ
  rng : Rng

/-- BranchingProcessNB.__init__: stores the parameters, computes
p = k / (k + R0) and n = k, and seeds the generator.  Python float
division raises ZeroDivisionError when k + R0 = 0, modelled as none;
no other validation is performed. -/
def BranchingProcessNB.init (R0 k : ℚ) (G_max : ℤ) (max_infec : ℚ)
    (rng : Rng) : Option BranchingProcessNB :=
  if k + R0 = 0 then none
  else some { R0 := R0, k := k, G_max := G_max, max_infec := max_infec,
              p := k / (k + R0), n := k, rng := rng }

/-- The method _offspring_sum: if current <= 0 return 0 without touching
the generator; otherwise draw size = current values from
nbinom(n = self.n, p = self.p) with random_state = self.rng and return
their (non-negative integer) sum, the generator having advanced by
current draws. -/
def BranchingProcessNB.offspring_sum (e : BranchingProcessNB)
    (current : ℤ) : ℕ × BranchingProcessNB :=
  if current ≤ 0 then (0, e)
  else
    let c := current.toNat
    let total :=
      ((List.range c).map (fun i => e.rng.stream (e.rng.idx + i))).sum
    (total, { e with rng := ⟨e.rng.stream, e.rng.idx + c⟩ })

/-- The body of simulate_step: for _ in range(G_max) with loop variable
current.  Faithful to the source: current is never reassigned inside
the loop (the source has no assignment current = next_gen), so the
recursive call passes current through unchanged. -/
def simLoop : ℕ → ℤ → BranchingProcessNB → Bool × BranchingProcessNB
  | 0, current, e => (decide (current = 0), e)
  | g + 1, current, e =>
      if current = 0 then (true, e)
      else if ((e.offspring_sum current).1 : ℚ) >
          (e.offspring_sum current).2.max_infec then
        (false, (e.offspring_sum current).2)
      else simLoop g current (e.offspring_sum current).2

/-- The method simulate_step: current = 1, then loop over
range(self.G_max); returns the extinct flag (and the post-call object
state).  range of a negative int is empty, hence toNat. -/
def BranchingProcessNB.simulate_step (e : BranchingProcessNB) :
    Bool × BranchingProcessNB :=
  simLoop e.G_max.toNat 1 e

/-- The trial loop of estimate_extinction_prob: runs t trials
sequentially against the shared generator, incrementing the extinct
counter each time simulate_step returns true. -/
def estimateLoop : ℕ → ℕ → BranchingProcessNB → ℕ × BranchingProcessNB
  | 0, extinct, e => (extinct, e)
  | t + 1, extinct, e =>
      estimateLoop t (if e.simulate_step.1 then extinct + 1 else extinct)
        e.simulate_step.2

/-- The method estimate_extinction_prob: runs range(n_trials) trials,
counts extinctions, returns extinct / n_trials.  The final Python
division raises ZeroDivisionError when n_trials = 0, modelled as none;
a negative n_trials gives an empty range and result 0 / n_trials. -/
def BranchingProcessNB.estimate_extinction_prob (e : BranchingProcessNB)
    (n_trials : ℤ) : Option (ℚ × BranchingProcessNB) :=
  if n_trials = 0 then none
  else
    let r := estimateLoop n_trials.toNat 0 e
    some ((r.1 : ℚ) / (n_trials : ℚ), r.2)

/-- The per-trial outcome sequence: the list of extinct flags of t
successive trials run against the shared generator, in order.  Used to
state that the driver counts exactly the trials whose flag is true. -/
def trialResults : ℕ → BranchingProcessNB → List Bool
  | 0, _ => []
  | t + 1, e => e.simulate_step.1 :: trialResults t e.simulate_step.2

/-- A concrete estimator used for witnesses: R0 = 0, k = 1, G_max = 2,
max_infec = 10^7, generator stream identically 0 (the draw sequence
nbinom with p = 1 actually produces). -/
def zeroRng : Rng := ⟨fun _ => 0, 0⟩

/-- The estimator BranchingProcessNB.init 0 1 2 (10^7) zeroRng yields. -/
def egZero : BranchingProcessNB :=
  { R0 := 0, k := 1, G_max := 2, max_infec := 10000000,
    p := 1, n := 1, rng := zeroRng }


/-- A second concrete estimator, with G_max = 0, used to exhibit that no
parameter validation happens (G_max < 1 is accepted silently). -/
def egG0 : BranchingProcessNB :=
  { R0 := 3, k := 1, G_max := 0, max_infec := 10000000,
    p := 1 / 4, n := 1, rng := zeroRng }

/-- A concrete estimator whose very first draw exceeds max_infec: every
draw of the stream is 100000000 > max_infec = 10000000. -/
def egBig : BranchingProcessNB :=
  { R0 := 3, k := 1, G_max := 5, max_infec := 10000000,
    p := 1 / 4, n := 1, rng := ⟨fun _ => 100000000, 0⟩ }

/-- The six parameter fields of the estimator object (everything except
the random generator) agree between two states. -/
def sameParams (a b : BranchingProcessNB) : Prop :=
  a.R0 = b.R0 ∧ a.k = b.k ∧ a.G_max = b.G_max ∧
  a.max_infec = b.max_infec ∧ a.p = b.p ∧ a.n = b.n

lemma sameParams_refl (a : BranchingProcessNB) : sameParams a a :=
  ⟨rfl, rfl, rfl, rfl, rfl, rfl⟩

lemma sameParams_trans {a b c : BranchingProcessNB}
    (h1 : sameParams a b) (h2 : sameParams b c) : sameParams a c := by
  obtain ⟨x1, x2, x3, x4, x5, x6⟩ := h1
  obtain ⟨y1, y2, y3, y4, y5, y6⟩ := h2
  exact ⟨x1.trans y1, x2.trans y2, x3.trans y3,
         x4.trans y4, x5.trans y5, x6.trans y6⟩

lemma offspring_sum_sameParams (e : BranchingProcessNB) (c : ℤ) :
    sameParams (e.offspring_sum c).2 e := by
  unfold BranchingProcessNB.offspring_sum
  split
  · exact sameParams_refl e
  · exact ⟨rfl, rfl, rfl, rfl, rfl, rfl⟩

lemma offspring_sum_stream (e : BranchingProcessNB) (c : ℤ) :
    (e.offspring_sum c).2.rng.stream = e.rng.stream := by
  unfold BranchingProcessNB.offspring_sum
  split <;> rfl

lemma simLoop_sameParams (g : ℕ) (c : ℤ) (e : BranchingProcessNB) :
    sameParams (simLoop g c e).2 e := by
  induction g generalizing e with
  | zero => exact sameParams_refl e
  | succ g ih =>
      unfold simLoop
      split
      · exact sameParams_refl e
      · split
        · exact offspring_sum_sameParams e c
        · exact sameParams_trans (ih _) (offspring_sum_sameParams e c)

lemma simulate_step_sameParams (e : BranchingProcessNB) :
    sameParams e.simulate_step.2 e :=
  simLoop_sameParams _ _ _

lemma estimateLoop_sameParams (t ex : ℕ) (e : BranchingProcessNB) :
    sameParams (estimateLoop t ex e).2 e := by
  induction t generalizing ex e with
  | zero => exact sameParams_refl e
  | succ t ih =>
      exact sameParams_trans (ih _ _) (simulate_step_sameParams e)

/-- Core of the bug: current is never reassigned inside the loop of
simulate_step, so a nonzero current can never trigger the extinction
branch and the loop always yields false. -/
lemma simLoop_ne_zero (g : ℕ) (c : ℤ) (e : BranchingProcessNB)
    (hc : c ≠ 0) : (simLoop g c e).1 = false := by
  induction g generalizing e with
  | zero => simp [simLoop, hc]
  | succ g ih =>
      unfold simLoop
      rw [if_neg hc]
      split
      · rfl
      · exact ih _

lemma simulate_step_false (e : BranchingProcessNB) :
    e.simulate_step.1 = false :=
  simLoop_ne_zero _ 1 e one_ne_zero

lemma estimateLoop_fst (t ex : ℕ) (e : BranchingProcessNB) :
    (estimateLoop t ex e).1 = ex := by
  induction t generalizing ex e with
  | zero => rfl
  | succ t ih =>
      unfold estimateLoop
      rw [simulate_step_false e]
      simpa using ih ex e.simulate_step.2

lemma trialResults_length (t : ℕ) (e : BranchingProcessNB) :
    (trialResults t e).length = t := by
  induction t generalizing e with
  | zero => rfl
  | succ t ih => simp [trialResults, ih]

/-- The extinct counter of the trial loop counts exactly the trials
whose extinct flag is true, in the order they are run. -/
lemma estimateLoop_count (t ex : ℕ) (e : BranchingProcessNB) :
    (estimateLoop t ex e).1 = ex + (trialResults t e).count true := by
  induction t generalizing ex e with
  | zero => simp [estimateLoop, trialResults]
  | succ t ih =>
      unfold estimateLoop trialResults
      rw [ih]
      cases h : e.simulate_step.1 <;> simp [h, List.count_cons]
      omega


/-- One positive individual consumes exactly one draw: the value at the
cursor, the cursor advancing by one. -/
lemma offspring_sum_one (e : BranchingProcessNB) :
    e.offspring_sum 1 =
      (e.rng.stream e.rng.idx,
       { e with rng := ⟨e.rng.stream, e.rng.idx + 1⟩ }) := by
  unfold BranchingProcessNB.offspring_sum
  rw [if_neg (by decide : ¬ (1 : ℤ) ≤ 0)]
  simp [List.range_succ]

/-- If the j-th generation (0-indexed, j within the generation budget)
is the first whose draw exceeds max_infec, the loop stops right there:
it returns false and the generator has consumed exactly j + 1 draws. -/
lemma simLoop_explode (g : ℕ) (j : ℕ) (e : BranchingProcessNB)
    (hj : j < g)
    (hgt : e.max_infec < (e.rng.stream (e.rng.idx + j) : ℚ))
    (hle : ∀ i, i < j → ((e.rng.stream (e.rng.idx + i)) : ℚ) ≤ e.max_infec) :
    (simLoop g 1 e).1 = false ∧
    (simLoop g 1 e).2.rng.stream = e.rng.stream ∧
    (simLoop g 1 e).2.rng.idx = e.rng.idx + j + 1 := by
  induction g generalizing j e with
  | zero => omega
  | succ g ih =>
      cases j with
      | zero =>
          have hcond : ((e.offspring_sum 1).1 : ℚ) >
              (e.offspring_sum 1).2.max_infec := by
            rw [offspring_sum_one]
            simpa using hgt
          unfold simLoop
          rw [if_neg one_ne_zero, if_pos hcond, offspring_sum_one]
          exact ⟨rfl, rfl, rfl⟩
      | succ j =>
          have hcond : ¬ (((e.offspring_sum 1).1 : ℚ) >
              (e.offspring_sum 1).2.max_infec) := by
            rw [offspring_sum_one]
            simpa using hle 0 (Nat.succ_pos j)
          have heq : simLoop (g + 1) 1 e =
              simLoop g 1 { e with rng := ⟨e.rng.stream, e.rng.idx + 1⟩ } := by
            conv =>
              left
              unfold simLoop
            rw [if_neg one_ne_zero, if_neg hcond, offspring_sum_one]
          obtain ⟨h1, h2, h3⟩ :=
            ih j { e with rng := ⟨e.rng.stream, e.rng.idx + 1⟩ }
              (by omega)
              (by show e.max_infec < (e.rng.stream (e.rng.idx + 1 + j) : ℚ)
                  have : e.rng.idx + 1 + j = e.rng.idx + (j + 1) := by omega
                  rw [this]
                  exact hgt)
              (by intro i hi
                  show ((e.rng.stream (e.rng.idx + 1 + i)) : ℚ) ≤ e.max_infec
                  have : e.rng.idx + 1 + i = e.rng.idx + (i + 1) := by omega
                  rw [this]
                  exact hle (i + 1) (by omega))
          rw [heq]
          refine ⟨h1, h2, ?_⟩
          rw [h3]
          show e.rng.idx + 1 + j + 1 = e.rng.idx + (j + 1) + 1
          omega

/-- A concrete estimator whose every draw (value 1) strictly exceeds
max_infec = 0, so the very first generation explodes. -/
def egHot : BranchingProcessNB :=
  { R0 := 3, k := 1, G_max := 5, max_infec := 0,
    p := 1 / 4, n := 1, rng := ⟨fun _ => 1, 0⟩ }

lemma init_egZero :
    BranchingProcessNB.init 0 1 2 10000000 zeroRng = some egZero := by
  unfold BranchingProcessNB.init egZero zeroRng
  norm_num

lemma init_egG0 :
    BranchingProcessNB.init 3 1 0 10000000 zeroRng = some egG0 := by
  unfold BranchingProcessNB.init egG0 zeroRng
  norm_num

lemma estimate_egZero_val :
    (egZero.estimate_extinction_prob 1).map Prod.fst = some 0 := by
  unfold BranchingProcessNB.estimate_extinction_prob
  rw [if_neg (by decide : ¬ (1 : ℤ) = 0)]
  simp [estimateLoop_fst]

/-- C1: the claim says the offspring total sampled in one generation
becomes the count used by the next generation.  The code never
reassigns current (the assignment current = next_gen is missing), so
this fails: with R0 = 0 (every draw 0) and G_max = 2, generation 1
samples a total of 0, within max_infec, yet the trial does not go
extinct: simulate_step returns false, while the remaining loop run on
the sampled count 0 (what the claim prescribes) would return true. -/
theorem current_not_updated_code_bug :
    BranchingProcessNB.init 0 1 2 10000000 zeroRng = some egZero ∧
    (egZero.offspring_sum 1).1 = 0 ∧
    ((egZero.offspring_sum 1).1 : ℚ) ≤ egZero.max_infec ∧
    (simLoop 1 0 (egZero.offspring_sum 1).2).1 = true ∧
    egZero.simulate_step.1 = false := by
  refine ⟨init_egZero, rfl, ?_, rfl, rfl⟩
  rw [show (egZero.offspring_sum 1).1 = 0 from rfl]
  norm_num [egZero]

/-- C2: current is initialized to 1 and never reassigned, so the
extinction check current = 0 can never succeed: simulate_step always
returns false, and estimate_extinction_prob returns exactly 0 for
every n_trials at least 1. -/
theorem simulate_step_always_false (e : BranchingProcessNB) (n : ℤ)
    (_hG : 1 ≤ e.G_max) (hn : 1 ≤ n) :
    e.simulate_step.1 = false ∧
    (e.estimate_extinction_prob n).map Prod.fst = some 0 := by
  refine ⟨simulate_step_false e, ?_⟩
  unfold BranchingProcessNB.estimate_extinction_prob
  rw [if_neg (by omega : ¬ n = 0)]
  simp [estimateLoop_fst]

theorem simulate_step_always_false_witness :
    (1 : ℤ) ≤ egZero.G_max ∧ (1 : ℤ) ≤ (1 : ℤ) ∧
    (egZero.simulate_step.1 = false ∧
      (egZero.estimate_extinction_prob 1).map Prod.fst = some 0) :=
  ⟨by decide, by decide,
   simulate_step_always_false egZero 1 (by decide) (by decide)⟩

/-- C3: the spec says that with R0 = 0 every trial dies after
generation 1 and the estimate is 1.  On the code, with R0 = 0 (so
every negative-binomial draw is 0, the all-zero stream), the estimate
is 0, not 1, because current is never reassigned and extinction is
unreachable. -/
theorem extinction_prob_not_one_code_bug :
    ((BranchingProcessNB.init 0 1 2 10000000 zeroRng).bind
        (fun e => (e.estimate_extinction_prob 1).map Prod.fst)) = some 0 ∧
    (0 : ℚ) ≠ 1 := by
  constructor
  · rw [init_egZero]
    simpa using estimate_egZero_val
  · norm_num

/-- C4 counterexample: the claim says an InvalidParameter error is
raised whenever G_max < 1 or n_trials <= 0 holds.  At G_max = 0 and
n_trials = -5 no error occurs anywhere: construction succeeds and
estimate_extinction_prob returns a value. -/
theorem no_invalid_parameter_error_counterexample :
    (0 : ℤ) < 1 ∧ (-5 : ℤ) ≤ 0 ∧
    (BranchingProcessNB.init 3 1 0 10000000 zeroRng).isSome = true ∧
    ((BranchingProcessNB.init 3 1 0 10000000 zeroRng).bind
        (fun e => e.estimate_extinction_prob (-5))).isSome = true := by
  refine ⟨by decide, by decide, ?_, ?_⟩
  · rw [init_egG0]; rfl
  · rw [init_egG0]; rfl

/-- C4 amended: no parameter validation exists and no InvalidParameter
error is ever raised.  Construction succeeds exactly when k + R0 is
nonzero (the only construction failure is the ZeroDivisionError of
p = k / (k + R0)), and estimate_extinction_prob completes normally
exactly when n_trials is nonzero (the only call failure is the
ZeroDivisionError of the final division); invalid settings such as
G_max < 1 or negative n_trials are accepted silently. -/
theorem no_validation_amended :
    (∀ (R0 k : ℚ) (G : ℤ) (M : ℚ) (r : Rng),
        (BranchingProcessNB.init R0 k G M r).isSome = true ↔ k + R0 ≠ 0) ∧
    (∀ (e : BranchingProcessNB) (n : ℤ),
        (e.estimate_extinction_prob n).isSome = true ↔ n ≠ 0) := by
  constructor
  · intro R0 k G M r
    by_cases h : k + R0 = 0 <;> simp [BranchingProcessNB.init, h]
  · intro e n
    by_cases h : n = 0 <;> simp [BranchingProcessNB.estimate_extinction_prob, h]

theorem no_validation_amended_witness :
    (BranchingProcessNB.init 3 1 0 10000000 zeroRng).isSome = true ↔
      (1 : ℚ) + 3 ≠ 0 :=
  no_validation_amended.1 3 1 0 10000000 zeroRng

/-- C5: the offspring sampler called with current count 0 returns
exactly 0 and leaves the generator untouched (no draw is consumed),
for every parameter setting and generator state. -/
theorem offspring_sum_zero_current (e : BranchingProcessNB) :
    e.offspring_sum 0 = (0, e) := by
  simp [BranchingProcessNB.offspring_sum]

/-- C6: for n_trials at least 1, estimate_extinction_prob returns
extinct_count / n_trials where extinct_count is the number of the
n_trials sequential trials whose extinct flag is true, and the value
lies in [0, 1]. -/
theorem estimate_ratio_in_unit_interval (e : BranchingProcessNB)
    (n : ℤ) (hn : 1 ≤ n) :
    (e.estimate_extinction_prob n).map Prod.fst =
      some (((trialResults n.toNat e).count true : ℚ) / (n : ℚ)) ∧
    ∀ q, (e.estimate_extinction_prob n).map Prod.fst = some q →
      0 ≤ q ∧ q ≤ 1 := by
  have hne : ¬ n = 0 := by omega
  have hval : (e.estimate_extinction_prob n).map Prod.fst =
      some (((trialResults n.toNat e).count true : ℚ) / (n : ℚ)) := by
    unfold BranchingProcessNB.estimate_extinction_prob
    rw [if_neg hne]
    simp [estimateLoop_count]
  refine ⟨hval, ?_⟩
  intro q hq
  rw [hval] at hq
  have hq' : q = ((trialResults n.toNat e).count true : ℚ) / (n : ℚ) :=
    (Option.some.injEq _ _ ▸ hq).symm
  have hnpos : (0 : ℚ) < (n : ℚ) := by exact_mod_cast (by omega : (0:ℤ) < n)
  have hcount : (trialResults n.toNat e).count true ≤ n.toNat := by
    have := List.count_le_length true (trialResults n.toNat e)
    rwa [trialResults_length] at this
  have hcast : ((trialResults n.toNat e).count true : ℚ) ≤ (n : ℚ) := by
    have h1 : (((trialResults n.toNat e).count true : ℤ)) ≤ (n.toNat : ℤ) := by
      exact_mod_cast hcount
    have h2 : ((n.toNat : ℤ)) = n := Int.toNat_of_nonneg (by omega)
    exact_mod_cast h2 ▸ h1
  subst hq'
  constructor
  · exact div_nonneg (Nat.cast_nonneg _) hnpos.le
  · exact (div_le_one hnpos).mpr hcast

theorem estimate_ratio_in_unit_interval_witness :
    (1 : ℤ) ≤ (1 : ℤ) ∧
    ((egZero.estimate_extinction_prob 1).map Prod.fst =
      some (((trialResults (1 : ℤ).toNat egZero).count true : ℚ) /
        ((1 : ℤ) : ℚ)) ∧
    ∀ q, (egZero.estimate_extinction_prob 1).map Prod.fst = some q →
      0 ≤ q ∧ q ≤ 1) :=
  ⟨le_refl 1, estimate_ratio_in_unit_interval egZero 1 (le_refl 1)⟩

/-- C7: determinism.  Two estimator instances constructed from
identical parameters and the identical seed-determined draw stream
(the seed is the hard-coded 101, and a seeded generator always yields
the same stream from cursor 0) return identical results for the same
n_trials. -/
theorem estimator_deterministic (s : ℕ → ℕ) (R0 k : ℚ) (G : ℤ) (M : ℚ)
    (n : ℤ) (e₁ e₂ : BranchingProcessNB)
    (h₁ : BranchingProcessNB.init R0 k G M ⟨s, 0⟩ = some e₁)
    (h₂ : BranchingProcessNB.init R0 k G M ⟨s, 0⟩ = some e₂) :
    e₁.estimate_extinction_prob n = e₂.estimate_extinction_prob n := by
  rw [h₁] at h₂
  injection h₂ with h
  rw [h]

theorem estimator_deterministic_witness :
    egZero.estimate_extinction_prob 1 = egZero.estimate_extinction_prob 1 :=
  estimator_deterministic (fun _ => 0) 0 1 2 10000000 1 egZero egZero
    init_egZero init_egZero

/-- C8: as soon as a generation's sampled offspring count strictly
exceeds max_infec, the trial returns false (non-extinct) immediately:
the generator has consumed exactly the draws of generations 0..j and
none of any later generation. -/
theorem explosion_terminates_immediately (e : BranchingProcessNB)
    (j : ℕ) (hj : j < e.G_max.toNat)
    (hgt : e.max_infec < (e.rng.stream (e.rng.idx + j) : ℚ))
    (hle : ∀ i, i < j →
      ((e.rng.stream (e.rng.idx + i)) : ℚ) ≤ e.max_infec) :
    e.simulate_step.1 = false ∧
    e.simulate_step.2.rng.stream = e.rng.stream ∧
    e.simulate_step.2.rng.idx = e.rng.idx + j + 1 :=
  simLoop_explode e.G_max.toNat j e hj hgt hle

theorem explosion_terminates_immediately_witness :
    0 < egHot.G_max.toNat ∧
    egHot.max_infec < (egHot.rng.stream (egHot.rng.idx + 0) : ℚ) ∧
    (egHot.simulate_step.1 = false ∧
     egHot.simulate_step.2.rng.stream = egHot.rng.stream ∧
     egHot.simulate_step.2.rng.idx = egHot.rng.idx + 0 + 1) :=
  ⟨by decide, by decide,
   explosion_terminates_immediately egHot 0 (by decide) (by decide)
     (fun i hi => absurd hi (Nat.not_lt_zero i))⟩

/-- C9: estimate_extinction_prob mutates nothing but the generator:
whenever it returns, the six parameter fields of the returned object
state equal those of the initial state. -/
theorem estimate_frame_params (e : BranchingProcessNB) (n : ℤ) (q : ℚ)
    (e' : BranchingProcessNB)
    (h : e.estimate_extinction_prob n = some (q, e')) :
    sameParams e' e := by
  unfold BranchingProcessNB.estimate_extinction_prob at h
  by_cases hn : n = 0
  · rw [if_pos hn] at h
    exact absurd h (by simp)
  · rw [if_neg hn] at h
    injection h with h'
    have h2 : (estimateLoop n.toNat 0 e).2 = e' := congrArg Prod.snd h'
    exact h2 ▸ estimateLoop_sameParams n.toNat 0 e

theorem estimate_frame_params_witness :
    sameParams (estimateLoop (Int.toNat 1) 0 egG0).2 egG0 :=
  estimate_frame_params egG0 1
    (((estimateLoop (Int.toNat 1) 0 egG0).1 : ℚ) / ((1 : ℤ) : ℚ))
    (estimateLoop (Int.toNat 1) 0 egG0).2 rfl

/-- C10: the sampler's guard is current <= 0, not current == 0: every
strictly negative current also returns 0 deterministically, without
consuming a draw. -/
theorem offspring_sum_negative_current (e : BranchingProcessNB)
    (c : ℤ) (hc : c < 0) : e.offspring_sum c = (0, e) := by
  unfold BranchingProcessNB.offspring_sum
  rw [if_pos (le_of_lt hc)]

theorem offspring_sum_negative_current_witness :
    (-1 : ℤ) < 0 ∧ egZero.offspring_sum (-1) = (0, egZero) :=
  ⟨by decide, offspring_sum_negative_current egZero (-1) (by decide)⟩
